import Mathlib

open Matrix

/-!
Shallow embedding of the MHT corner tracker (motionModel.c / mdlmht.H / mht.h)
and verification of claims about its specification.

Numbers: C++ doubles are modelled as real numbers.  The small fixed-size
matrix utility (MATRIX) is out of scope of the spec; it is modelled by
Mathlib matrices over the reals together with the standard closed-form
2-by-2 determinant and inverse that the kernel contract requires.
-/

/-- 4-by-4 real matrix, as used for state covariances. -/
abbrev M4 := Matrix (Fin 4) (Fin 4) ℝ

/-- 2-by-2 real matrix, as used for innovation covariances. -/
abbrev M2 := Matrix (Fin 2) (Fin 2) ℝ

/-- 2-by-4 real matrix (the measurement matrix H). -/
abbrev M24 := Matrix (Fin 2) (Fin 4) ℝ

/-- 4-by-2 real matrix (the Kalman gain W). -/
abbrev M42 := Matrix (Fin 4) (Fin 2) ℝ

/-- 4-by-1 column vector (state mean). -/
abbrev V4 := Matrix (Fin 4) (Fin 1) ℝ

/-- 2-by-1 column vector (measurement). -/
abbrev V2 := Matrix (Fin 2) (Fin 1) ℝ

/-- Determinant of a 2-by-2 matrix, the closed form computed by the numeric
kernel (MATRIX::det on a 2-by-2 operand). -/
noncomputable def MATRIX.det2 (S : M2) : ℝ :=
  S 0 0 * S 1 1 - S 0 1 * S 1 0

/-- Inverse of a 2-by-2 matrix, the closed form computed by the numeric
kernel (MATRIX::inv on a 2-by-2 operand). -/
noncomputable def MATRIX.inv2 (S : M2) : M2 :=
  (1 / MATRIX.det2 S) • !![S 1 1, -(S 0 1); -(S 1 0), S 0 0]

/-- The constant part of the likelihood calculation
(motionModel.c: static const double LOG_NORMFACTOR = 1.5963597). -/
noncomputable def LOG_NORMFACTOR : ℝ := 1.5963597

/-- EPSILON from motionModel.c (double EPSILON = 0.00000000000001). -/
noncomputable def EPSILON : ℝ := 0.00000000000001

/-- The measurement matrix H set up in CONSTVEL_STATE::setup and
CONSTVEL_MDL::getNextState: H = [[1,0,0,0],[0,0,1,0]]. -/
noncomputable def Hmat : M24 := !![1, 0, 0, 0; 0, 0, 1, 0]

/-- A detection report (CONSTPOS_REPORT).  The class declaration lives in
motionModel.h; fields are modelled from its uses in motionModel.c and the
spec data model: false-alarm log-likelihood, measured position (x, y),
25-element texture descriptor, frame number, detection id. -/
structure CONSTPOS_REPORT where
  m_falarmLogLikelihood : ℝ
  m_x : ℝ
  m_y : ℝ
  m_textureInfo : ℕ → ℝ
  m_frameNo : ℕ
  m_cornerID : ℕ

/-- Measurement vector z of a report (CONSTPOS_REPORT::getZ), the measured
position as a 2-by-1 column. -/
noncomputable def CONSTPOS_REPORT.getZ (r : CONSTPOS_REPORT) : V2 := !![r.m_x; r.m_y]

/-- A motion state (CONSTVEL_STATE).  The class declaration lives in
motionModel.h; core fields are modelled from their uses in motionModel.c
and the spec data model: 4-D mean vector m_x = (x, xdot, y, ydot) stored as
a 4-by-1 matrix, 4-by-4 covariance m_P, previous texture descriptor,
log-likelihood contribution, and skip count. -/
structure CONSTVEL_STATE where
  m_x : V4
  m_P : M4
  m_prevTextureInfo : ℕ → ℝ
  m_logLikelihood : ℝ
  m_numSkipped : ℕ

/-- The CONSTVEL_STATE constructor: takes the four mean components and
stores them as the 4-by-1 mean matrix. -/
noncomputable def mkCVState (x dx y dy : ℝ) (tex : ℕ → ℝ) (P : M4) (ll : ℝ)
    (skips : ℕ) : CONSTVEL_STATE :=
  { m_x := !![x; dx; y; dy]
    m_P := P
    m_prevTextureInfo := tex
    m_logLikelihood := ll
    m_numSkipped := skips }

/-- Accessor getX: element 0 of the mean. -/
def CONSTVEL_STATE.getX (s : CONSTVEL_STATE) : ℝ := s.m_x 0 0

/-- Accessor getDX: element 1 of the mean. -/
def CONSTVEL_STATE.getDX (s : CONSTVEL_STATE) : ℝ := s.m_x 1 0

/-- Accessor getY: element 2 of the mean. -/
def CONSTVEL_STATE.getY (s : CONSTVEL_STATE) : ℝ := s.m_x 2 0

/-- Accessor getDY: element 3 of the mean. -/
def CONSTVEL_STATE.getDY (s : CONSTVEL_STATE) : ℝ := s.m_x 3 0

/-- Mutator setDX: overwrite element 1 of the mean. -/
def CONSTVEL_STATE.setDX (s : CONSTVEL_STATE) (v : ℝ) : CONSTVEL_STATE :=
  { s with m_x := s.m_x.updateRow 1 (fun _ => v) }

/-- Mutator setDY: overwrite element 3 of the mean. -/
def CONSTVEL_STATE.setDY (s : CONSTVEL_STATE) (v : ℝ) : CONSTVEL_STATE :=
  { s with m_x := s.m_x.updateRow 3 (fun _ => v) }

/-- The derived block of a motion state, populated (at most once) by
CONSTVEL_STATE::setup: inverse innovation covariance m_Sinv, Kalman gain
m_W, next-step covariance m_nextP, prediction mean m_x1, and the
log-likelihood normalization coefficient m_logLikelihoodCoef. -/
structure CVDerived where
  m_logLikelihoodCoef : ℝ
  m_Sinv : M2
  m_W : M42
  m_nextP : M4
  m_x1 : V4

/-- The time step used by CONSTVEL_STATE::setup (it begins with m_ds = 1). -/
noncomputable def CONSTVEL_STATE.m_ds : ℝ := 1

/-- Square of the time step (setup local ds2 = m_ds * m_ds). -/
noncomputable def CONSTVEL_STATE.ds2 : ℝ :=
  CONSTVEL_STATE.m_ds * CONSTVEL_STATE.m_ds

/-- Cube of the time step (setup local ds3 = ds2 * m_ds). -/
noncomputable def CONSTVEL_STATE.ds3 : ℝ :=
  CONSTVEL_STATE.ds2 * CONSTVEL_STATE.m_ds

/-- The state transition matrix built by CONSTVEL_STATE::setup
(F.set with the time step m_ds). -/
noncomputable def setupF : M4 :=
  !![1, CONSTVEL_STATE.m_ds, 0, 0;
     0, 1, 0, 0;
     0, 0, 1, CONSTVEL_STATE.m_ds;
     0, 0, 0, 1]

/-- The process covariance matrix built by CONSTVEL_STATE::setup
(Q.set with ds2, ds3, then Q = Q * processVariance). -/
noncomputable def setupQ (processVariance : ℝ) : M4 :=
  processVariance •
    !![CONSTVEL_STATE.ds3/3, CONSTVEL_STATE.ds2/2, 0, 0;
       CONSTVEL_STATE.ds2/2, CONSTVEL_STATE.m_ds, 0, 0;
       0, 0, CONSTVEL_STATE.ds3/3, CONSTVEL_STATE.ds2/2;
       0, 0, CONSTVEL_STATE.ds2/2, CONSTVEL_STATE.m_ds]

/-- CONSTVEL_STATE::setup, the report-independent part of the Kalman filter
calculation, translated statement by statement from motionModel.c
lines 159-239.  The mutate-once lazy population of the derived members is
modelled by returning the derived block as a value. -/
noncomputable def CONSTVEL_STATE.setup (s : CONSTVEL_STATE)
    (processVariance : ℝ) (R : M2) : CVDerived :=
  let F : M4 := setupF
  let Q : M4 := setupQ processVariance
  let P1 : M4 := F * s.m_P * Fᵀ + Q
  let S : M2 := Hmat * P1 * Hmatᵀ + R
  let Sinv : M2 := MATRIX.inv2 S
  let W : M42 := P1 * Hmatᵀ * Sinv
  { m_logLikelihoodCoef := -(LOG_NORMFACTOR + Real.log (MATRIX.det2 S) / 2)
    m_Sinv := Sinv
    m_W := W
    m_nextP := P1 - W * S * Wᵀ
    m_x1 := F * s.m_x }

/-- State transition matrix of the spec (4.4):
F = [[1,dt,0,0],[0,1,0,0],[0,0,1,dt],[0,0,0,1]]. -/
noncomputable def specF (dt : ℝ) : M4 :=
  !![1, dt, 0, 0;
     0, 1, 0, 0;
     0, 0, 1, dt;
     0, 0, 0, 1]

/-- Process covariance of the spec (4.4):
Q = sigma2 * [[dt^3/3,dt^2/2,0,0],[dt^2/2,dt,0,0],
[0,0,dt^3/3,dt^2/2],[0,0,dt^2/2,dt]]. -/
noncomputable def specQ (dt sigma2 : ℝ) : M4 :=
  sigma2 • !![dt^3/3, dt^2/2, 0, 0;
              dt^2/2, dt, 0, 0;
              0, 0, dt^3/3, dt^2/2;
              0, 0, dt^2/2, dt]

/-- The derived block as described by the spec (4.4), written from the
spec text for comparison with the source embedding: P1 = F P Ft + Q,
S = H P1 Ht + R, W = P1 Ht Sinv, P_next = P1 - W S Wt, x_pred = F x,
log_coef = -(1.5963597 + ln det S / 2). -/
noncomputable def specDerivedBlock (dt sigma2 : ℝ) (R : M2) (P : M4)
    (x : V4) : CVDerived :=
  let P1 : M4 := specF dt * P * (specF dt)ᵀ + specQ dt sigma2
  let S : M2 := Hmat * P1 * Hmatᵀ + R
  { m_logLikelihoodCoef := -(1.5963597 + Real.log (MATRIX.det2 S) / 2)
    m_Sinv := MATRIX.inv2 S
    m_W := P1 * Hmatᵀ * MATRIX.inv2 S
    m_nextP := P1 - (P1 * Hmatᵀ * MATRIX.inv2 S) * S * (P1 * Hmatᵀ * MATRIX.inv2 S)ᵀ
    m_x1 := specF dt * x }

/-- Claim C3: for every motion state, the lazily computed derived block is
built from the spec state-transition matrix F and process covariance Q at
the inter-frame interval used by the code (setup sets m_ds = 1), and
consists of P1 = F P Ft + Q, S = H P1 Ht + R, W = P1 Ht Sinv,
P_next = P1 - W S Wt, x_pred = F x, and
log_coef = -(1.5963597 + ln det S / 2). -/
theorem C3_setup_matches_spec_derived_block (s : CONSTVEL_STATE)
    (processVariance : ℝ) (R : M2) :
    s.setup processVariance R =
      specDerivedBlock CONSTVEL_STATE.m_ds processVariance R s.m_P s.m_x := by
  have hF : setupF = specF CONSTVEL_STATE.m_ds := rfl
  have hQ : setupQ processVariance = specQ CONSTVEL_STATE.m_ds processVariance := by
    unfold setupQ specQ CONSTVEL_STATE.ds3 CONSTVEL_STATE.ds2
    congr 1
    ext i j
    fin_cases i <;> fin_cases j <;> ring_nf
  unfold CONSTVEL_STATE.setup specDerivedBlock LOG_NORMFACTOR
  rw [hF, hQ]

/-- Texture element of a 5-wide descriptor grid at row y, column x
(the source computes index = width * y + x with width = 5). -/
noncomputable def texAt (tex : ℕ → ℝ) (y x : ℕ) : ℝ := tex (5 * y + x)

/-- Sum of the 3-by-3 window of a texture descriptor centered at (ym, xm):
the source loops j and i over -1..1 and reads position (ym + j, xm + i). -/
noncomputable def winSum (tex : ℕ → ℝ) (ym xm : ℕ) : ℝ :=
  ∑ p : Fin 3 × Fin 3, texAt tex (ym + p.1 - 1) (xm + p.2 - 1)

/-- Sum of squared elements of the 3-by-3 window centered at (ym, xm)
(the sigma accumulator of getCorr before normalization). -/
noncomputable def winSqSum (tex : ℕ → ℝ) (ym xm : ℕ) : ℝ :=
  ∑ p : Fin 3 × Fin 3,
    texAt tex (ym + p.1 - 1) (xm + p.2 - 1) * texAt tex (ym + p.1 - 1) (xm + p.2 - 1)

/-- Mean of the 3-by-3 window centered at (ym, xm) (accumulate, then /= 9). -/
noncomputable def winMean (tex : ℕ → ℝ) (ym xm : ℕ) : ℝ := winSum tex ym xm / 9

/-- Standard deviation of the 3-by-3 window centered at (ym, xm):
sigma = sqrt(sum of squares / 9 - mean * mean), as computed in getCorr. -/
noncomputable def winSigma (tex : ℕ → ℝ) (ym xm : ℕ) : ℝ :=
  Real.sqrt (winSqSum tex ym xm / 9 - winMean tex ym xm * winMean tex ym xm)

/-- Element of the 3-by-3 window centered at (ym, xm) minus that window's
mean (the centered factors accumulated by the correlation loop). -/
noncomputable def winCentered (tex : ℕ → ℝ) (ym xm : ℕ)
    (p : Fin 3 × Fin 3) : ℝ :=
  texAt tex (ym + p.1 - 1) (xm + p.2 - 1) - winMean tex ym xm

/-- Centered covariance accumulated by getCorr for offset (ym, xm): the sum
over the 3-by-3 window of (state texture at the central window minus the
state mean) times (report texture at the sliding window minus the report
window mean).  The state window is centered at (2, 2). -/
noncomputable def winCov (stex rtex : ℕ → ℝ) (ym xm : ℕ) : ℝ :=
  ∑ p : Fin 3 × Fin 3, winCentered stex 2 2 p * winCentered rtex ym xm p

/-- The correlation coefficient getCorr produces for one offset (ym, xm)
(CORR_COEFF branch of motionModel.c):
corr != 0.0 or reportSigma * stateSigma != 0.0
  ? corr / (9.0 * reportSigma * stateSigma) : 1.0. -/
noncomputable def corrAt (stex rtex : ℕ → ℝ) (ym xm : ℕ) : ℝ :=
  let stateSigma := winSigma stex 2 2
  let reportSigma := winSigma rtex ym xm
  let corr := winCov stex rtex ym xm
  if corr ≠ 0 ∨ reportSigma * stateSigma ≠ 0 then
    corr / (9 * reportSigma * stateSigma)
  else 1

/-- HUGE from the C library headers the source includes, the largest double
(any value larger than 1 gives the same maximum below, since every
correlation coefficient produced lies in the interval from -1 to 1). -/
noncomputable def HUGE : ℝ := 1.7976931348623157e308

/-- The nine (ym, xm) offsets of getCorr, in loop order (p = ym outer from
1 to 3, q = xm inner from 1 to 3). -/
def corrOffsets : List (ℕ × ℕ) :=
  [(1,1), (1,2), (1,3), (2,1), (2,2), (2,3), (3,1), (3,2), (3,3)]

/-- CONSTVEL_MDL::getCorr (CORR_COEFF branch, motionModel.c lines 740-839):
the maximum over the nine offsets of the per-offset correlation
coefficient, accumulated from an initial value of -HUGE.  The function is a
member of CONSTVEL_MDL but the CORR_COEFF branch reads no model field, so
it is embedded as a function of the state and report textures only. -/
noncomputable def CONSTVEL_MDL.getCorr (s : CONSTVEL_STATE)
    (r : CONSTPOS_REPORT) : ℝ :=
  corrOffsets.foldl
    (fun maxCorr pq =>
      let corr := corrAt s.m_prevTextureInfo r.m_textureInfo pq.1 pq.2
      if corr > maxCorr then corr else maxCorr)
    (-HUGE)

/-- The constant-velocity corner model (CONSTVEL_MDL).  Fields are the
members set by the constructor in motionModel.c lines 517-570. -/
structure CONSTVEL_MDL where
  m_startLogLikelihood : ℝ
  m_lambda_x : ℝ
  m_skipLogLikelihood : ℝ
  m_detectLogLikelihood : ℝ
  m_maxDistance : ℝ
  m_processVariance : ℝ
  m_intensityVariance : ℝ
  m_intensityThreshold : ℝ
  m_stateVariance : ℝ
  m_R : M2
  m_startP : M4

/-- Accessor getX of a report (measured x position). -/
noncomputable def CONSTPOS_REPORT.getX (r : CONSTPOS_REPORT) : ℝ := r.m_x

/-- Accessor getY of a report (measured y position). -/
noncomputable def CONSTPOS_REPORT.getY (r : CONSTPOS_REPORT) : ℝ := r.m_y

/-- CONSTVEL_MDL::getEndLogLikelihood (motionModel.c lines 261-269):
endProb = 1 - exp(-m / lambda), bumped by EPSILON when it is exactly zero,
then log. -/
noncomputable def CONSTVEL_MDL.getEndLogLikelihood (mdl : CONSTVEL_MDL)
    (s : CONSTVEL_STATE) : ℝ :=
  let m : ℕ := s.m_numSkipped
  let endProb : ℝ := 1 - Real.exp (-(m : ℝ) / mdl.m_lambda_x)
  let endProb := endProb + (if endProb = 0 then EPSILON else 0)
  Real.log endProb

/-- CONSTVEL_MDL::getContinueLogLikelihood (motionModel.c lines 270-278):
same endProb computation, then log(1 - endProb). -/
noncomputable def CONSTVEL_MDL.getContinueLogLikelihood (mdl : CONSTVEL_MDL)
    (s : CONSTVEL_STATE) : ℝ :=
  let m : ℕ := s.m_numSkipped
  let endProb : ℝ := 1 - Real.exp (-(m : ℝ) / mdl.m_lambda_x)
  let endProb := endProb + (if endProb = 0 then EPSILON else 0)
  Real.log (1 - endProb)

/-- CONSTVEL_MDL::getSkipLogLikelihood: the model constant. -/
noncomputable def CONSTVEL_MDL.getSkipLogLikelihood (mdl : CONSTVEL_MDL)
    (s : CONSTVEL_STATE) : ℝ :=
  mdl.m_skipLogLikelihood

/-- CONSTVEL_MDL::getNextState (motionModel.c lines 342-488): produce the
next state estimate from an optional previous state and optional report.
The three branches are new track (no previous state), skip (no report),
and measured continuation (both present; Mahalanobis gating, then texture
validation, then Kalman update). -/
noncomputable def CONSTVEL_MDL.getNextState (mdl : CONSTVEL_MDL)
    (state : Option CONSTVEL_STATE) (report : Option CONSTPOS_REPORT) :
    Option CONSTVEL_STATE :=
  match state, report with
  | none, some r =>
      some (mkCVState r.getX 0 r.getY 0 r.m_textureInfo mdl.m_startP
        mdl.m_startLogLikelihood 0)
  | none, none =>
      -- not reachable from the callers; the source would dereference null
      none
  | some s, none =>
      let d := s.setup mdl.m_processVariance mdl.m_R
      some (mkCVState (d.m_x1 0 0) (d.m_x1 1 0) (d.m_x1 2 0) (d.m_x1 3 0)
        s.m_prevTextureInfo d.m_nextP 0 (s.m_numSkipped + 1))
  | some s, some r =>
      let d := s.setup mdl.m_processVariance mdl.m_R
      let v : V2 := r.getZ - Hmat * d.m_x1
      let distance : ℝ := (vᵀ * d.m_Sinv * v) 0 0
      if distance > mdl.m_maxDistance then none
      else
        let intDistance := CONSTVEL_MDL.getCorr s r
        let intValidated : Prop := intDistance > mdl.m_intensityThreshold
        if ¬ intValidated then none
        else
          let new_m_x : V4 := d.m_x1 + d.m_W * v
          some (mkCVState (new_m_x 0 0) (new_m_x 1 0) (new_m_x 2 0)
            (new_m_x 3 0) r.m_textureInfo d.m_nextP
            (d.m_logLikelihoodCoef - distance / 2) 0)

/-- CONSTVEL_MDL::getNewState (motionModel.c lines 301-332).  For state
number 0, when both a previous state and a report are present and the
previous state's velocity is exactly (0, 0), the source first overwrites
that state's velocity in place with the displacement to the report
(setDX/setDY), then calls getNextState.  The in-place write is modelled by
returning the (possibly updated) previous state alongside the produced
state.  For any other state number the source asserts false. -/
noncomputable def CONSTVEL_MDL.getNewState (mdl : CONSTVEL_MDL)
    (stateNum : ℕ) (state : Option CONSTVEL_STATE)
    (report : Option CONSTPOS_REPORT) :
    Option CONSTVEL_STATE × Option CONSTVEL_STATE :=
  match stateNum with
  | 0 =>
      let state := match state, report with
        | some s, some r =>
            if s.getDX = 0 ∧ s.getDY = 0 then
              some ((s.setDX (r.getX - s.getX)).setDY (r.getY - s.getY))
            else some s
        | _, _ => state
      (state, mdl.getNextState state report)
  | _ + 1 => (state, none)

/-- CONSTVEL_MDL::beginNewStates (motionModel.c lines 502-510): returns 1
unconditionally.  The comment block above it in the source says new track
growth is limited to the first frame, but the guard it refers to is absent
(g_isFirstScan is commented out in the driver and MHT::m_isFirstScan is
written but never read), so no first-scan information reaches this
function at all. -/
def CONSTVEL_MDL.beginNewStates (mdl : CONSTVEL_MDL)
    (state : Option CONSTVEL_STATE) (report : Option CONSTPOS_REPORT) : ℕ :=
  1

/-- A child installed under a ROOT track-tree node by
MDL_ROOT_T_HYPO::makeChildrenFor: one FALARM node, plus START nodes. -/
inductive RootChild where
  | falarm (report : CONSTPOS_REPORT)
  | start (state : CONSTVEL_STATE) (report : CONSTPOS_REPORT)

/-- MDL_ROOT_T_HYPO::makeChildrenFor (mdlmht.H lines 713-741): install a
FALARM child for the report, then, for the constant-velocity model (the
one model the driver installs), ask beginNewStates how many start states
to make and install a START child for every non-null getNewState result. -/
noncomputable def MDL_ROOT_T_HYPO.makeChildrenFor (mdl : CONSTVEL_MDL)
    (report : CONSTPOS_REPORT) : List RootChild :=
  RootChild.falarm report ::
    (List.range (mdl.beginNewStates none (some report))).filterMap
      (fun i => ((mdl.getNewState i none (some report)).2).map
        (fun st => RootChild.start st report))

/-- Number of START children in a list of ROOT children. -/
def startCount (children : List RootChild) : ℕ :=
  children.countP (fun c =>
    match c with
    | RootChild.start _ _ => true
    | _ => false)

/-- Claim C1, behavior of the code at and after the first scan: for the
constant-velocity model, makeChildrenFor on a ROOT node creates exactly
one START child for every report, at every scan.  beginNewStates returns 1
unconditionally and the new-track branch of getNextState never returns
null, and no first-scan flag is consulted anywhere on this path (the
engine flag m_isFirstScan is written but never read), so the claimed
restriction of new-track initiation to the first scan does not exist in
the code. -/
theorem C1_start_child_created_for_every_report (mdl : CONSTVEL_MDL)
    (r : CONSTPOS_REPORT) :
    startCount (MDL_ROOT_T_HYPO.makeChildrenFor mdl r) = 1 := by
  simp [MDL_ROOT_T_HYPO.makeChildrenFor, CONSTVEL_MDL.beginNewStates,
    CONSTVEL_MDL.getNewState, CONSTVEL_MDL.getNextState, startCount,
    List.range_succ, List.countP_cons]

/-- Model instance for the counterexample to claim C6: simple parameter
values (unit measurement covariance, zero process noise). -/
noncomputable def c6_mdl : CONSTVEL_MDL :=
  { m_startLogLikelihood := 0
    m_lambda_x := 1
    m_skipLogLikelihood := 0
    m_detectLogLikelihood := 0
    m_maxDistance := 1
    m_processVariance := 0
    m_intensityVariance := 1
    m_intensityThreshold := 1/2
    m_stateVariance := 1
    m_R := 1
    m_startP := 0 }

/-- A previously produced motion state with velocity exactly (0, 0), as a
start state has. -/
noncomputable def c6_state : CONSTVEL_STATE := mkCVState 0 0 0 0 (fun _ => 0) 0 0 0

/-- A report at position (1, 2). -/
noncomputable def c6_report : CONSTPOS_REPORT :=
  { m_falarmLogLikelihood := 0
    m_x := 1
    m_y := 2
    m_textureInfo := fun _ => 0
    m_frameNo := 0
    m_cornerID := 0 }

/-- Counterexample to claim C6: a model operation changes a field of a
previously returned motion state.  Calling getNewState with a previous
state whose velocity is (0, 0) and a report at (1, 2) overwrites the
state's velocity in place: its dx field was 0 before the call and is 1
after it.  This write is to the mean vector, not to the lazily populated
derived block. -/
theorem C6_counterexample :
    c6_state.getDX = 0 ∧
    Option.map CONSTVEL_STATE.getDX
      ((c6_mdl.getNewState 0 (some c6_state) (some c6_report)).1) = some 1 := by
  have hdx : c6_state.getDX = 0 := rfl
  have hdy : c6_state.getDY = 0 := rfl
  refine ⟨hdx, ?_⟩
  simp only [CONSTVEL_MDL.getNewState, hdx, hdy, and_self, if_true,
    Option.map_some']
  have : ((c6_state.setDX (c6_report.getX - c6_state.getX)).setDY
      (c6_report.getY - c6_state.getY)).getDX =
      c6_report.getX - c6_state.getX := by
    simp [CONSTVEL_STATE.setDX, CONSTVEL_STATE.setDY, CONSTVEL_STATE.getDX,
      Matrix.updateRow_self, Matrix.updateRow_ne]
  rw [this]
  simp [c6_report, c6_state, mkCVState, CONSTPOS_REPORT.getX, CONSTVEL_STATE.getX]

/-- Claim C6 as amended: reports are never modified by model operations
(they are taken and returned by value in this embedding, mirroring that no
source operation writes to an installed report's fields), and a previously
returned motion state is left unchanged by every model operation, with two
exceptions: the one-time lazy population of the derived block, and
getNewState, which overwrites the previous state's velocity with the
displacement from the state to the report exactly when state number 0 is
requested, both a previous state and a report are present, and the
previous state's velocity is exactly (0, 0). -/
theorem C6_amended_prev_state_changed_only_by_velocity_bootstrap
    (mdl : CONSTVEL_MDL) (i : ℕ) (state : Option CONSTVEL_STATE)
    (report : Option CONSTPOS_REPORT) :
    (mdl.getNewState i state report).1 =
      match i, state, report with
      | 0, some s, some r =>
          if s.getDX = 0 ∧ s.getDY = 0 then
            some ((s.setDX (r.getX - s.getX)).setDY (r.getY - s.getY))
          else some s
      | _, _, _ => state := by
  match i, state, report with
  | 0, some s, some r => rfl
  | 0, some s, none => rfl
  | 0, none, some r => rfl
  | 0, none, none => rfl
  | n+1, state, report => rfl

/-- The end probability described by the spec (4.4):
p_end(m) = 1 - exp(-m/lambda), plus EPSILON when it is exactly zero. -/
noncomputable def specPEnd (lambda : ℝ) (m : ℕ) : ℝ :=
  let p := 1 - Real.exp (-(m : ℝ) / lambda)
  if p = 0 then p + EPSILON else p

/-- Claim C7: for every state with skip count m, with
p = p_end(m) = 1 - exp(-m/lambda) (plus EPSILON when exactly zero), the
end log-likelihood is ln p, the continue log-likelihood is ln(1 - p), and
exp of the one plus exp of the other is 1 (complementary probabilities).
Requires the model parameter lambda to be positive. -/
theorem C7_end_continue_complementary (mdl : CONSTVEL_MDL)
    (s : CONSTVEL_STATE) (hl : 0 < mdl.m_lambda_x) :
    mdl.getEndLogLikelihood s =
      Real.log (specPEnd mdl.m_lambda_x s.m_numSkipped) ∧
    mdl.getContinueLogLikelihood s =
      Real.log (1 - specPEnd mdl.m_lambda_x s.m_numSkipped) ∧
    Real.exp (mdl.getEndLogLikelihood s) +
      Real.exp (mdl.getContinueLogLikelihood s) = 1 := by
  have hfrac : (0:ℝ) ≤ (s.m_numSkipped : ℝ) / mdl.m_lambda_x :=
    div_nonneg (Nat.cast_nonneg _) hl.le
  have hexp_le : Real.exp (-(s.m_numSkipped : ℝ) / mdl.m_lambda_x) ≤ 1 := by
    rw [Real.exp_le_one_iff, neg_div]
    exact neg_nonpos.mpr hfrac
  have hexp_pos : 0 < Real.exp (-(s.m_numSkipped : ℝ) / mdl.m_lambda_x) :=
    Real.exp_pos _
  set p0 : ℝ := 1 - Real.exp (-(s.m_numSkipped : ℝ) / mdl.m_lambda_x) with hp0
  have hp0nonneg : 0 ≤ p0 := by rw [hp0]; linarith
  have hp0lt : p0 < 1 := by rw [hp0]; linarith
  by_cases h0 : p0 = 0
  · have hEnd : mdl.getEndLogLikelihood s = Real.log (p0 + EPSILON) := by
      simp only [CONSTVEL_MDL.getEndLogLikelihood, ← hp0, if_pos h0]
    have hCont : mdl.getContinueLogLikelihood s =
        Real.log (1 - (p0 + EPSILON)) := by
      simp only [CONSTVEL_MDL.getContinueLogLikelihood, ← hp0, if_pos h0]
    have hspec : specPEnd mdl.m_lambda_x s.m_numSkipped = p0 + EPSILON := by
      simp only [specPEnd, ← hp0, if_pos h0]
    have hepos : (0:ℝ) < p0 + EPSILON := by
      rw [h0]; norm_num [EPSILON]
    have heltone : p0 + EPSILON < 1 := by
      rw [h0]; norm_num [EPSILON]
    refine ⟨by rw [hEnd, hspec], by rw [hCont, hspec], ?_⟩
    rw [hEnd, hCont, Real.exp_log hepos, Real.exp_log (by linarith)]
    ring
  · have hp0pos : 0 < p0 := lt_of_le_of_ne hp0nonneg (Ne.symm h0)
    have hEnd : mdl.getEndLogLikelihood s = Real.log p0 := by
      simp only [CONSTVEL_MDL.getEndLogLikelihood, ← hp0, if_neg h0, add_zero]
    have hCont : mdl.getContinueLogLikelihood s = Real.log (1 - p0) := by
      simp only [CONSTVEL_MDL.getContinueLogLikelihood, ← hp0, if_neg h0,
        add_zero]
    have hspec : specPEnd mdl.m_lambda_x s.m_numSkipped = p0 := by
      simp only [specPEnd, ← hp0, if_neg h0]
    refine ⟨by rw [hEnd, hspec], by rw [hCont, hspec], ?_⟩
    rw [hEnd, hCont, Real.exp_log hp0pos, Real.exp_log (by linarith)]
    ring

/-- Model instance for the C7 witness (lambda = 1). -/
noncomputable def c7_mdl : CONSTVEL_MDL :=
  { m_startLogLikelihood := 0
    m_lambda_x := 1
    m_skipLogLikelihood := 0
    m_detectLogLikelihood := 0
    m_maxDistance := 1
    m_processVariance := 0
    m_intensityVariance := 1
    m_intensityThreshold := 1/2
    m_stateVariance := 1
    m_R := 1
    m_startP := 0 }

/-- State instance for the C7 witness (skip count 0, the EPSILON case). -/
noncomputable def c7_state : CONSTVEL_STATE := mkCVState 3 0 4 0 (fun _ => 0) 0 0 0

/-- Witness for claim C7 at lambda = 1 and skip count 0. -/
theorem C7_witness :
    (0:ℝ) < c7_mdl.m_lambda_x ∧
    (c7_mdl.getEndLogLikelihood c7_state =
        Real.log (specPEnd c7_mdl.m_lambda_x c7_state.m_numSkipped) ∧
      c7_mdl.getContinueLogLikelihood c7_state =
        Real.log (1 - specPEnd c7_mdl.m_lambda_x c7_state.m_numSkipped) ∧
      Real.exp (c7_mdl.getEndLogLikelihood c7_state) +
        Real.exp (c7_mdl.getContinueLogLikelihood c7_state) = 1) :=
  ⟨by norm_num [c7_mdl],
    C7_end_continue_complementary c7_mdl c7_state (by norm_num [c7_mdl])⟩

/-- Auxiliary: a sum of nine centered squares equals the sum of squares
minus nine times the squared mean. -/
lemma sum_centered_mul_self (f : Fin 3 × Fin 3 → ℝ) (m : ℝ)
    (hm : ∑ p : Fin 3 × Fin 3, f p = 9 * m) :
    ∑ p : Fin 3 × Fin 3, (f p - m) * (f p - m) =
      (∑ p : Fin 3 × Fin 3, f p * f p) - 9 * (m * m) := by
  have hexp : ∀ p : Fin 3 × Fin 3,
      (f p - m) * (f p - m) = f p * f p - 2 * m * f p + m * m :=
    fun p => by ring
  rw [Finset.sum_congr rfl fun p _ => hexp p, Finset.sum_add_distrib,
    Finset.sum_sub_distrib, ← Finset.mul_sum, hm, Finset.sum_const]
  have hcard : (Finset.univ : Finset (Fin 3 × Fin 3)).card = 9 := by decide
  rw [hcard, nsmul_eq_mul]
  push_cast
  ring

/-- The window sum is nine times the window mean. -/
lemma winSum_eq_nine_mean (tex : ℕ → ℝ) (ym xm : ℕ) :
    winSum tex ym xm = 9 * winMean tex ym xm := by
  unfold winMean
  ring

/-- Sum of squared centered window values, in terms of the accumulators. -/
lemma sum_winCentered_mul_self (tex : ℕ → ℝ) (ym xm : ℕ) :
    ∑ p : Fin 3 × Fin 3, winCentered tex ym xm p * winCentered tex ym xm p =
      winSqSum tex ym xm - 9 * (winMean tex ym xm * winMean tex ym xm) := by
  unfold winCentered winSqSum
  exact sum_centered_mul_self _ _ (winSum_eq_nine_mean tex ym xm)

/-- The window standard deviation is nonnegative. -/
lemma winSigma_nonneg (tex : ℕ → ℝ) (ym xm : ℕ) : 0 ≤ winSigma tex ym xm :=
  Real.sqrt_nonneg _

/-- The squared window standard deviation is the mean of the squared
centered window values. -/
lemma winSigma_mul_self (tex : ℕ → ℝ) (ym xm : ℕ) :
    winSigma tex ym xm * winSigma tex ym xm =
      (∑ p : Fin 3 × Fin 3,
        winCentered tex ym xm p * winCentered tex ym xm p) / 9 := by
  have ha : winSqSum tex ym xm / 9 - winMean tex ym xm * winMean tex ym xm =
      (∑ p : Fin 3 × Fin 3,
        winCentered tex ym xm p * winCentered tex ym xm p) / 9 := by
    rw [sum_winCentered_mul_self]
    ring
  have hnn : 0 ≤ (∑ p : Fin 3 × Fin 3,
      winCentered tex ym xm p * winCentered tex ym xm p) / 9 :=
    div_nonneg (Finset.sum_nonneg fun p _ => mul_self_nonneg _) (by norm_num)
  unfold winSigma
  rw [ha, Real.mul_self_sqrt hnn]

/-- Cauchy-Schwarz bound for the correlation accumulators: the absolute
centered covariance is at most nine times the product of the two window
standard deviations. -/
lemma abs_winCov_le (stex rtex : ℕ → ℝ) (ym xm : ℕ) :
    |winCov stex rtex ym xm| ≤
      9 * (winSigma rtex ym xm * winSigma stex 2 2) := by
  have hcs := Finset.sum_mul_sq_le_sq_mul_sq Finset.univ
    (fun p : Fin 3 × Fin 3 => winCentered stex 2 2 p)
    (fun p : Fin 3 × Fin 3 => winCentered rtex ym xm p)
  have h2 : ∑ p : Fin 3 × Fin 3, winCentered stex 2 2 p ^ 2 =
      9 * (winSigma stex 2 2 * winSigma stex 2 2) := by
    simp only [pow_two]
    rw [winSigma_mul_self]
    field_simp
  have h3 : ∑ p : Fin 3 × Fin 3, winCentered rtex ym xm p ^ 2 =
      9 * (winSigma rtex ym xm * winSigma rtex ym xm) := by
    simp only [pow_two]
    rw [winSigma_mul_self]
    field_simp
  have hb : winCov stex rtex ym xm ^ 2 ≤
      (9 * (winSigma rtex ym xm * winSigma stex 2 2)) ^ 2 := by
    calc winCov stex rtex ym xm ^ 2 ≤
        (∑ p : Fin 3 × Fin 3, winCentered stex 2 2 p ^ 2) *
          (∑ p : Fin 3 × Fin 3, winCentered rtex ym xm p ^ 2) := hcs
      _ = (9 * (winSigma stex 2 2 * winSigma stex 2 2)) *
          (9 * (winSigma rtex ym xm * winSigma rtex ym xm)) := by rw [h2, h3]
      _ = (9 * (winSigma rtex ym xm * winSigma stex 2 2)) ^ 2 := by ring
  have hnn : 0 ≤ 9 * (winSigma rtex ym xm * winSigma stex 2 2) := by
    have := winSigma_nonneg rtex ym xm
    have := winSigma_nonneg stex 2 2
    positivity
  calc |winCov stex rtex ym xm| = Real.sqrt (winCov stex rtex ym xm ^ 2) :=
        (Real.sqrt_sq_eq_abs _).symm
    _ ≤ Real.sqrt ((9 * (winSigma rtex ym xm * winSigma stex 2 2)) ^ 2) :=
        Real.sqrt_le_sqrt hb
    _ = 9 * (winSigma rtex ym xm * winSigma stex 2 2) := Real.sqrt_sq hnn

/-- Every per-offset correlation coefficient produced by getCorr lies in
the closed interval from -1 to 1, including the 1.0 value defined for the
zero-variance case. -/
lemma corrAt_bounds (stex rtex : ℕ → ℝ) (ym xm : ℕ) :
    -1 ≤ corrAt stex rtex ym xm ∧ corrAt stex rtex ym xm ≤ 1 := by
  have hsR := winSigma_nonneg rtex ym xm
  have hsS := winSigma_nonneg stex 2 2
  have habs := abs_winCov_le stex rtex ym xm
  unfold corrAt
  by_cases hD : winSigma rtex ym xm * winSigma stex 2 2 = 0
  · have h0 : |winCov stex rtex ym xm| ≤ 0 := by
      rw [hD] at habs
      simpa using habs
    have hcov : winCov stex rtex ym xm = 0 :=
      abs_eq_zero.mp (le_antisymm h0 (abs_nonneg _))
    simp only [hcov, hD, ne_eq, not_true_eq_false, or_self, if_false,
      not_false_eq_true]
    norm_num
  · have hDpos : 0 < winSigma rtex ym xm * winSigma stex 2 2 :=
      lt_of_le_of_ne (mul_nonneg hsR hsS) (Ne.symm hD)
    have hcond : winCov stex rtex ym xm ≠ 0 ∨
        winSigma rtex ym xm * winSigma stex 2 2 ≠ 0 := Or.inr hD
    simp only [if_pos hcond]
    have h9 : (0:ℝ) < 9 * winSigma rtex ym xm * winSigma stex 2 2 := by
      rw [mul_assoc]
      exact mul_pos (by norm_num) hDpos
    constructor
    · rw [le_div_iff h9]
      have h1 := (abs_le.mp habs).1
      nlinarith
    · rw [div_le_one h9]
      have h2 := (abs_le.mp habs).2
      nlinarith

/-- Claim C9: for every state/report pair and each of the nine offsets the
texture-correlation validator evaluates, the per-offset correlation
coefficient (including the zero-variance 1.0 case) lies in the closed
interval from -1 to 1, so the source assertion
assert(corr >= -1.0 && corr <= 1.0) never fails. -/
theorem C9_assert_corr_in_unit_interval (s : CONSTVEL_STATE)
    (r : CONSTPOS_REPORT) (p q : Fin 3) :
    -1 ≤ corrAt s.m_prevTextureInfo r.m_textureInfo (p.val + 1) (q.val + 1) ∧
    corrAt s.m_prevTextureInfo r.m_textureInfo (p.val + 1) (q.val + 1) ≤ 1 :=
  corrAt_bounds s.m_prevTextureInfo r.m_textureInfo (p.val + 1) (q.val + 1)

/-- The derived block getNextState lazily sets up on the previous state
(state->setup(m_processVariance, m_R)). -/
noncomputable def predictedDerived (mdl : CONSTVEL_MDL)
    (s : CONSTVEL_STATE) : CVDerived :=
  s.setup mdl.m_processVariance mdl.m_R

/-- The innovation of the measured branch: v = z - H x_pred. -/
noncomputable def innovation (mdl : CONSTVEL_MDL) (s : CONSTVEL_STATE)
    (r : CONSTPOS_REPORT) : V2 :=
  r.getZ - Hmat * (predictedDerived mdl s).m_x1

/-- The Mahalanobis distance of the measured branch: d = vT Sinv v. -/
noncomputable def mahalanobis (mdl : CONSTVEL_MDL) (s : CONSTVEL_STATE)
    (r : CONSTPOS_REPORT) : ℝ :=
  ((innovation mdl s r)ᵀ * (predictedDerived mdl s).m_Sinv *
    innovation mdl s r) 0 0

/-- A 4-by-1 matrix rebuilt from its four entries is itself. -/
lemma vec4_eta (m : V4) : (!![m 0 0; m 1 0; m 2 0; m 3 0] : V4) = m := by
  ext i j
  fin_cases i <;> fin_cases j <;> rfl

/-- Characterization of the measured-continuation branch of getNextState:
reject when the Mahalanobis distance exceeds m_maxDistance; otherwise
accept exactly when the texture correlation exceeds m_intensityThreshold,
returning the state with mean x_pred + W v, covariance P_next,
log-likelihood log_coef - d/2, and skip count 0. -/
lemma getNextState_measured (mdl : CONSTVEL_MDL) (s : CONSTVEL_STATE)
    (r : CONSTPOS_REPORT) :
    mdl.getNextState (some s) (some r) =
      if mahalanobis mdl s r > mdl.m_maxDistance then none
      else if CONSTVEL_MDL.getCorr s r > mdl.m_intensityThreshold then
        some { m_x := (predictedDerived mdl s).m_x1 +
                 (predictedDerived mdl s).m_W * innovation mdl s r
               m_P := (predictedDerived mdl s).m_nextP
               m_prevTextureInfo := r.m_textureInfo
               m_logLikelihood := (predictedDerived mdl s).m_logLikelihoodCoef -
                 mahalanobis mdl s r / 2
               m_numSkipped := 0 }
      else none := by
  simp only [CONSTVEL_MDL.getNextState, innovation, mahalanobis,
    predictedDerived]
  by_cases h1 : ((r.getZ - Hmat * (s.setup mdl.m_processVariance mdl.m_R).m_x1)ᵀ *
      (s.setup mdl.m_processVariance mdl.m_R).m_Sinv *
      (r.getZ - Hmat * (s.setup mdl.m_processVariance mdl.m_R).m_x1)) 0 0 >
      mdl.m_maxDistance
  · rw [if_pos h1, if_pos h1]
  · rw [if_neg h1, if_neg h1]
    by_cases h2 : CONSTVEL_MDL.getCorr s r > mdl.m_intensityThreshold
    · rw [if_neg (not_not_intro h2), if_pos h2]
      congr 1
      simp only [mkCVState]
      congr 1
      exact vec4_eta _
    · rw [if_pos h2, if_neg h2]

/-- Claim C4: on the measured-continuation branch (previous state and
report both present), the model computes the innovation v = z - H x_pred
and the Mahalanobis distance d = vT Sinv v; it returns null when
d exceeds m_maxDistance; and when it does not and texture validation
passes, the returned state has mean x_pred + W v, covariance P_next,
log-likelihood log_coef - d/2, and skip count reset to 0. -/
theorem C4_measured_branch (mdl : CONSTVEL_MDL) (s : CONSTVEL_STATE)
    (r : CONSTPOS_REPORT) :
    innovation mdl s r = r.getZ - Hmat * (predictedDerived mdl s).m_x1 ∧
    mahalanobis mdl s r =
      ((innovation mdl s r)ᵀ * (predictedDerived mdl s).m_Sinv *
        innovation mdl s r) 0 0 ∧
    mdl.getNextState (some s) (some r) =
      (if mahalanobis mdl s r > mdl.m_maxDistance then none
       else if CONSTVEL_MDL.getCorr s r > mdl.m_intensityThreshold then
         some { m_x := (predictedDerived mdl s).m_x1 +
                  (predictedDerived mdl s).m_W * innovation mdl s r
                m_P := (predictedDerived mdl s).m_nextP
                m_prevTextureInfo := r.m_textureInfo
                m_logLikelihood := (predictedDerived mdl s).m_logLikelihoodCoef -
                  mahalanobis mdl s r / 2
                m_numSkipped := 0 }
       else none) :=
  ⟨rfl, rfl, getNextState_measured mdl s r⟩

/-- The per-offset correlation rule as worded by the spec: 1.0 when either
standard deviation is zero and the centered covariance is zero; otherwise
the centered covariance divided by 9 times the product of the two
standard deviations. -/
noncomputable def specCorrAt (stex rtex : ℕ → ℝ) (ym xm : ℕ) : ℝ :=
  if (winSigma stex 2 2 = 0 ∨ winSigma rtex ym xm = 0) ∧
      winCov stex rtex ym xm = 0 then 1
  else winCov stex rtex ym xm /
    (9 * (winSigma rtex ym xm * winSigma stex 2 2))

/-- The source per-offset correlation agrees with the spec wording at
every offset. -/
lemma corrAt_eq_specCorrAt (stex rtex : ℕ → ℝ) (ym xm : ℕ) :
    corrAt stex rtex ym xm = specCorrAt stex rtex ym xm := by
  unfold corrAt specCorrAt
  by_cases hc : winCov stex rtex ym xm ≠ 0 ∨
      winSigma rtex ym xm * winSigma stex 2 2 ≠ 0
  · rw [if_pos hc, if_neg]
    · rw [mul_assoc]
    · rintro ⟨hs, hcov⟩
      rcases hc with h | h
      · exact h hcov
      · exact h (mul_eq_zero.mpr hs.symm)
  · rw [if_neg hc, if_pos]
    push_neg at hc
    exact ⟨(mul_eq_zero.mp hc.2).symm, hc.1⟩

/-- The update step of the getCorr maximum loop is the binary maximum. -/
lemma if_gt_eq_max (m c : ℝ) : (if c > m then c else m) = max m c := by
  rcases le_or_lt c m with h | h
  · rw [if_neg (not_lt.mpr h), max_eq_left h]
  · rw [if_pos h, max_eq_right h.le]

/-- A left fold of max dominates its initial value and every element. -/
lemma le_foldl_max (init : ℝ) (l : List ℝ) :
    init ≤ l.foldl max init ∧ ∀ c ∈ l, c ≤ l.foldl max init := by
  induction l generalizing init with
  | nil => simp
  | cons a t ih =>
    simp only [List.foldl_cons]
    refine ⟨le_trans (le_max_left _ _) (ih (max init a)).1, ?_⟩
    intro c hc
    rcases List.mem_cons.mp hc with rfl | hm
    · exact le_trans (le_max_right init c) (ih (max init c)).1
    · exact (ih (max init a)).2 c hm

/-- A left fold of max is the initial value or an element of the list. -/
lemma foldl_max_mem (init : ℝ) (l : List ℝ) :
    l.foldl max init = init ∨ l.foldl max init ∈ l := by
  induction l generalizing init with
  | nil => exact Or.inl rfl
  | cons a t ih =>
    simp only [List.foldl_cons]
    rcases ih (max init a) with h | h
    · rcases le_total init a with hle | hle
      · exact Or.inr (by rw [h, max_eq_right hle]; exact List.mem_cons_self a t)
      · exact Or.inl (by rw [h, max_eq_left hle])
    · exact Or.inr (List.mem_cons_of_mem a h)

/-- The nine per-offset correlation values, in loop order, as worded by
the spec. -/
noncomputable def specNineCorrs (s : CONSTVEL_STATE)
    (r : CONSTPOS_REPORT) : List ℝ :=
  corrOffsets.map
    (fun pq => specCorrAt s.m_prevTextureInfo r.m_textureInfo pq.1 pq.2)

/-- getCorr is the fold of max over the nine spec correlation values. -/
lemma getCorr_eq_foldl_max (s : CONSTVEL_STATE) (r : CONSTPOS_REPORT) :
    CONSTVEL_MDL.getCorr s r = (specNineCorrs s r).foldl max (-HUGE) := by
  unfold CONSTVEL_MDL.getCorr specNineCorrs
  rw [List.foldl_map]
  have hfun : (fun (maxCorr : ℝ) (pq : ℕ × ℕ) =>
      let corr := corrAt s.m_prevTextureInfo r.m_textureInfo pq.1 pq.2
      if corr > maxCorr then corr else maxCorr) =
      fun (maxCorr : ℝ) (pq : ℕ × ℕ) =>
        max maxCorr (specCorrAt s.m_prevTextureInfo r.m_textureInfo pq.1 pq.2) := by
    funext m pq
    simp only [corrAt_eq_specCorrAt, if_gt_eq_max]
  rw [hfun]

/-- getCorr returns the maximum of the nine per-offset correlations: it is
one of them and dominates all of them. -/
lemma getCorr_is_max (s : CONSTVEL_STATE) (r : CONSTPOS_REPORT) :
    CONSTVEL_MDL.getCorr s r ∈ specNineCorrs s r ∧
    ∀ c ∈ specNineCorrs s r, c ≤ CONSTVEL_MDL.getCorr s r := by
  have hfold := getCorr_eq_foldl_max s r
  have hb := le_foldl_max (-HUGE) (specNineCorrs s r)
  have hmem : specCorrAt s.m_prevTextureInfo r.m_textureInfo 1 1 ∈
      specNineCorrs s r := by
    unfold specNineCorrs corrOffsets
    simp
  have hlow : -1 ≤ specCorrAt s.m_prevTextureInfo r.m_textureInfo 1 1 := by
    rw [← corrAt_eq_specCorrAt]
    exact (corrAt_bounds _ _ 1 1).1
  constructor
  · rcases foldl_max_mem (-HUGE) (specNineCorrs s r) with h | h
    · exfalso
      have hle := hb.2 _ hmem
      rw [h] at hle
      have : (-1 : ℝ) ≤ -HUGE := le_trans hlow hle
      norm_num [HUGE] at this
    · rw [hfold]
      exact h
  · intro c hc
    rw [hfold]
    exact hb.2 c hc

/-- Claim C8: in texture validation, each of the nine per-offset
correlations follows the spec rule (1.0 exactly when either standard
deviation is zero and the centered covariance is zero, otherwise the
centered covariance over 9 times the product of the standard deviations);
getCorr is the maximum over the nine offsets; and the measured branch
accepts exactly when that maximum exceeds the texture threshold (given
the Mahalanobis gate passed). -/
theorem C8_texture_correlation_rule (mdl : CONSTVEL_MDL)
    (s : CONSTVEL_STATE) (r : CONSTPOS_REPORT) :
    (∀ p q : Fin 3,
      corrAt s.m_prevTextureInfo r.m_textureInfo (p.val + 1) (q.val + 1) =
        specCorrAt s.m_prevTextureInfo r.m_textureInfo (p.val + 1) (q.val + 1)) ∧
    (CONSTVEL_MDL.getCorr s r ∈ specNineCorrs s r ∧
      ∀ c ∈ specNineCorrs s r, c ≤ CONSTVEL_MDL.getCorr s r) ∧
    mdl.getNextState (some s) (some r) =
      (if mahalanobis mdl s r > mdl.m_maxDistance then none
       else if CONSTVEL_MDL.getCorr s r > mdl.m_intensityThreshold then
         some { m_x := (predictedDerived mdl s).m_x1 +
                  (predictedDerived mdl s).m_W * innovation mdl s r
                m_P := (predictedDerived mdl s).m_nextP
                m_prevTextureInfo := r.m_textureInfo
                m_logLikelihood := (predictedDerived mdl s).m_logLikelihoodCoef -
                  mahalanobis mdl s r / 2
                m_numSkipped := 0 }
       else none) :=
  ⟨fun p q => corrAt_eq_specCorrAt _ _ _ _, getCorr_is_max s r,
    getNextState_measured mdl s r⟩

/-- A report as the engine sees it (REPORT base class of mht.h): engine
bookkeeping row number plus the model payload. -/
structure REPORT (Rp : Type) where
  m_rowNum : ℤ
  payload : Rp

/-- One enqueued detection batch (CORNERLIST): the detections of one frame
together with the inter-frame time delta. -/
structure CORNERLIST (Cn : Type) where
  list : List Cn
  m_dT : ℝ

/-- The engine-global state of MHT (members of the MHT class in mht.h).
Track trees, groups, corners and active track hypotheses are engine
payloads whose internal structure scan() does not inspect, so they are
type parameters. -/
structure MHTState (Cn Tr Gr Rp Th : Type) where
  m_lastTrackIdUsed : ℤ
  m_currentTime : ℤ
  m_tTreeList : List Tr
  m_groupList : List Gr
  m_oldReportList : List (REPORT Rp)
  m_newReportList : List (REPORT Rp)
  m_activeTHypoList : List Th
  m_reportsQueue : List (CORNERLIST Cn)
  m_isFirstScan : Bool

/-- The operations scan() delegates to, one field per member function call
in MHT::scan (mht.h lines 1061-1114).  measureAndValidate is virtual and
model-supplied; the others are engine passes whose internals the claims
about scan() do not depend on, so scan is parametrized over all of them
and the theorems below quantify over every possible implementation. -/
structure MHTOps (Cn Tr Gr Rp Th : Type) where
  measureAndValidate :
    MHTState Cn Tr Gr Rp Th → List Cn → ℝ → MHTState Cn Tr Gr Rp Th
  makeNewGroups : MHTState Cn Tr Gr Rp Th → MHTState Cn Tr Gr Rp Th
  findGroupLabels : MHTState Cn Tr Gr Rp Th → MHTState Cn Tr Gr Rp Th
  splitGroups : MHTState Cn Tr Gr Rp Th → MHTState Cn Tr Gr Rp Th
  mergeGroups : MHTState Cn Tr Gr Rp Th → MHTState Cn Tr Gr Rp Th
  pruneAndHypothesize : MHTState Cn Tr Gr Rp Th → MHTState Cn Tr Gr Rp Th
  removeUnusedTHypos : MHTState Cn Tr Gr Rp Th → MHTState Cn Tr Gr Rp Th
  verifyTTreeRoots : MHTState Cn Tr Gr Rp Th → MHTState Cn Tr Gr Rp Th
  removeUnusedTTrees : MHTState Cn Tr Gr Rp Th → MHTState Cn Tr Gr Rp Th
  removeUnusedReports : MHTState Cn Tr Gr Rp Th → MHTState Cn Tr Gr Rp Th
  removeUnusedGroups : MHTState Cn Tr Gr Rp Th → MHTState Cn Tr Gr Rp Th
  updateActiveTHypoList : MHTState Cn Tr Gr Rp Th → MHTState Cn Tr Gr Rp Th

/-- MHT::importNewReports (mht.h): assign each new report a row number
equal to its position in the new list, then splice the new list onto the
end of the old list, leaving the new list empty. -/
def MHT.importNewReports {Cn Tr Gr Rp Th : Type}
    (s : MHTState Cn Tr Gr Rp Th) : MHTState Cn Tr Gr Rp Th :=
  { s with
    m_oldReportList := s.m_oldReportList ++
      (s.m_newReportList.mapIdx fun rowNum rep =>
        { rep with m_rowNum := (rowNum : ℤ) })
    m_newReportList := [] }

/-- The ingest prefix of MHT::scan, steps shared by every non-idle call:
pop the front batch off the queue, run the virtual measureAndValidate on
it, increment m_currentTime, clear the active-leaf list, and import the
new reports. -/
def MHT.ingest {Cn Tr Gr Rp Th : Type} (ops : MHTOps Cn Tr Gr Rp Th)
    (s : MHTState Cn Tr Gr Rp Th) (newReports : CORNERLIST Cn)
    (restQueue : List (CORNERLIST Cn)) : MHTState Cn Tr Gr Rp Th :=
  let s1 := ops.measureAndValidate { s with m_reportsQueue := restQueue }
    newReports.list newReports.m_dT
  let s2 := { s1 with m_currentTime := s1.m_currentTime + 1 }
  let s3 := { s2 with m_activeTHypoList := [] }
  MHT.importNewReports s3

/-- MHT::scan (mht.h lines 1061-1114): return 0 immediately when the
queue is empty; otherwise ingest the front batch, return 0 when the tree
list is then empty, and otherwise run the grouping, hypothesis, pruning
and verification passes in source order, clear the first-scan flag, and
return 1.  (The doDbg windows are disabled by default and only print.) -/
def MHT.scan {Cn Tr Gr Rp Th : Type} (ops : MHTOps Cn Tr Gr Rp Th)
    (s : MHTState Cn Tr Gr Rp Th) : ℤ × MHTState Cn Tr Gr Rp Th :=
  match s.m_reportsQueue with
  | [] => (0, s)
  | newReports :: restQueue =>
    let s4 := MHT.ingest ops s newReports restQueue
    if s4.m_tTreeList.isEmpty then (0, s4)
    else
      let s5 := ops.makeNewGroups s4
      let s6 := ops.findGroupLabels s5
      let s7 := ops.splitGroups s6
      let s8 := ops.mergeGroups s7
      let s9 := ops.pruneAndHypothesize s8
      let s10 := ops.removeUnusedTHypos s9
      let s11 := ops.verifyTTreeRoots s10
      let s12 := ops.removeUnusedTTrees s11
      let s13 := ops.removeUnusedReports s12
      let s14 := ops.removeUnusedGroups s13
      let s15 := ops.updateActiveTHypoList s14
      (1, { s15 with m_isFirstScan := false })

/-- Claim C2: if the detection-batch queue is empty when scan() is called,
scan() returns the idle result 0 and makes no state change at all (the
result state is the input state, so current time, tree list, group list,
report lists, active-leaf list, and first-scan flag are all unchanged),
for every possible implementation of the delegated passes. -/
theorem C2_empty_queue_scan_is_idle {Cn Tr Gr Rp Th : Type}
    (ops : MHTOps Cn Tr Gr Rp Th) (s : MHTState Cn Tr Gr Rp Th)
    (h : s.m_reportsQueue = []) :
    MHT.scan ops s = (0, s) := by
  unfold MHT.scan
  rw [h]

/-- Operations instance for the engine witnesses: the identity on every
pass. -/
def trivialOps : MHTOps Unit Unit Unit Unit Unit :=
  { measureAndValidate := fun s _ _ => s
    makeNewGroups := id
    findGroupLabels := id
    splitGroups := id
    mergeGroups := id
    pruneAndHypothesize := id
    removeUnusedTHypos := id
    verifyTTreeRoots := id
    removeUnusedTTrees := id
    removeUnusedReports := id
    removeUnusedGroups := id
    updateActiveTHypoList := id }

/-- Engine state with an empty queue for the C2 witness. -/
def c2_state : MHTState Unit Unit Unit Unit Unit :=
  { m_lastTrackIdUsed := 5
    m_currentTime := 7
    m_tTreeList := [()]
    m_groupList := [()]
    m_oldReportList := [{ m_rowNum := 0, payload := () }]
    m_newReportList := []
    m_activeTHypoList := [()]
    m_reportsQueue := []
    m_isFirstScan := true }

/-- Witness for claim C2 at a concrete engine state with an empty queue. -/
theorem C2_witness :
    c2_state.m_reportsQueue = [] ∧ MHT.scan trivialOps c2_state = (0, c2_state) :=
  ⟨rfl, C2_empty_queue_scan_is_idle trivialOps c2_state rfl⟩

/-- Claim C10: when the queue is non-empty but the track-tree list is
empty after ingesting the dequeued batch, scan() still consumes the batch,
runs measureAndValidate, increments current time, clears the active-leaf
list and imports the new reports, yet returns 0 (the idle value) with the
post-ingest state: none of the grouping, pruning or verification passes
contribute to the result (the conclusion does not depend on them), and the
first-scan flag is not cleared.  The three preservation hypotheses record
that the model's measureAndValidate override does not touch the queue, the
scan counter or the first-scan flag, which the concrete override
(MDL_MHT::measureAndValidate) does not. -/
theorem C10_empty_tree_list_scan_returns_idle_without_hypothesizing
    {Cn Tr Gr Rp Th : Type} (ops : MHTOps Cn Tr Gr Rp Th)
    (s : MHTState Cn Tr Gr Rp Th) (newReports : CORNERLIST Cn)
    (restQueue : List (CORNERLIST Cn))
    (hq : s.m_reportsQueue = newReports :: restQueue)
    (hmvFlag : ∀ s2 l dt,
      (ops.measureAndValidate s2 l dt).m_isFirstScan = s2.m_isFirstScan)
    (hmvTime : ∀ s2 l dt,
      (ops.measureAndValidate s2 l dt).m_currentTime = s2.m_currentTime)
    (hmvQueue : ∀ s2 l dt,
      (ops.measureAndValidate s2 l dt).m_reportsQueue = s2.m_reportsQueue)
    (hempty : (MHT.ingest ops s newReports restQueue).m_tTreeList = []) :
    MHT.scan ops s = (0, MHT.ingest ops s newReports restQueue) ∧
    (MHT.ingest ops s newReports restQueue).m_isFirstScan = s.m_isFirstScan ∧
    (MHT.ingest ops s newReports restQueue).m_currentTime =
      s.m_currentTime + 1 ∧
    (MHT.ingest ops s newReports restQueue).m_reportsQueue = restQueue ∧
    (MHT.ingest ops s newReports restQueue).m_newReportList = [] ∧
    (MHT.ingest ops s newReports restQueue).m_activeTHypoList = [] := by
  refine ⟨?_, ?_, ?_, ?_, ?_, ?_⟩
  · unfold MHT.scan
    rw [hq]
    simp only [hempty, List.isEmpty_nil, if_true]
  · simp [MHT.ingest, MHT.importNewReports, hmvFlag]
  · simp [MHT.ingest, MHT.importNewReports, hmvTime]
  · simp [MHT.ingest, MHT.importNewReports, hmvQueue]
  · simp [MHT.ingest, MHT.importNewReports]
  · simp [MHT.ingest, MHT.importNewReports]

/-- The batch enqueued for the C10 witness (an empty frame). -/
noncomputable def c10_batch : CORNERLIST Unit := { list := [], m_dT := 1 }

/-- Engine state for the C10 witness: one enqueued batch, no track trees. -/
noncomputable def c10_state : MHTState Unit Unit Unit Unit Unit :=
  { m_lastTrackIdUsed := 0
    m_currentTime := 3
    m_tTreeList := []
    m_groupList := []
    m_oldReportList := []
    m_newReportList := [{ m_rowNum := 0, payload := () }]
    m_activeTHypoList := [()]
    m_reportsQueue := [c10_batch]
    m_isFirstScan := true }

/-- Witness for claim C10 at a concrete engine state whose tree list is
empty after ingest. -/
theorem C10_witness :
    c10_state.m_reportsQueue = [c10_batch] ∧
    (MHT.ingest trivialOps c10_state c10_batch []).m_tTreeList = [] ∧
    (MHT.scan trivialOps c10_state =
        (0, MHT.ingest trivialOps c10_state c10_batch []) ∧
      (MHT.ingest trivialOps c10_state c10_batch []).m_isFirstScan =
        c10_state.m_isFirstScan ∧
      (MHT.ingest trivialOps c10_state c10_batch []).m_currentTime =
        c10_state.m_currentTime + 1 ∧
      (MHT.ingest trivialOps c10_state c10_batch []).m_reportsQueue = [] ∧
      (MHT.ingest trivialOps c10_state c10_batch []).m_newReportList = [] ∧
      (MHT.ingest trivialOps c10_state c10_batch []).m_activeTHypoList = []) :=
  ⟨rfl, rfl,
    C10_empty_tree_list_scan_returns_idle_without_hypothesizing trivialOps
      c10_state c10_batch [] rfl (fun _ _ _ => rfl) (fun _ _ _ => rfl)
      (fun _ _ _ => rfl) rfl⟩

/-- A track-tree node as seen by MHT::verifyTTreeRoots: the ends-track and
must-verify flags, an event identifier standing for the node's verify()
call (emitting its verification event), and the child list. -/
inductive T_HYPO_NODE where
  | mk (endsTrack mustVerify : Bool) (eventId : ℕ) (children : List T_HYPO_NODE)

/-- The ends-track flag of a node. -/
def T_HYPO_NODE.endsTrack : T_HYPO_NODE → Bool
  | T_HYPO_NODE.mk e _ _ _ => e

/-- The must-verify flag of a node. -/
def T_HYPO_NODE.mustVerify : T_HYPO_NODE → Bool
  | T_HYPO_NODE.mk _ m _ _ => m

/-- MHT::verifyTTreeRoots restricted to one track tree (mht.h lines
1329-1359): while the root has exactly one child and does not end the
track, emit the root's verification event if it is marked must-verify and
pop the root so the child becomes the new root; after the loop, if the
final root ends the track and is marked must-verify, emit its event.
Returns the emitted events in order and the remaining tree. -/
def MHT.verifyTTreeRootsOne : T_HYPO_NODE → List ℕ × T_HYPO_NODE
  | T_HYPO_NODE.mk e m i cs =>
    match cs with
    | [c] =>
      if !e then
        let rest := MHT.verifyTTreeRootsOne c
        ((if m then [i] else []) ++ rest.1, rest.2)
      else ((if e && m then [i] else []), T_HYPO_NODE.mk e m i cs)
    | _ => ((if e && m then [i] else []), T_HYPO_NODE.mk e m i cs)

/-- Claim C5: in the root-verification step, for every track tree, while
the root has exactly one child and does not end the track, the root's
verification event is emitted if and only if the root is marked
must-verify, and then that child becomes the new root (the loop continues
on the child); and when the loop stops (the root ends the track or does
not have exactly one child), the final root's verification event is
emitted if and only if it ends the track and is marked must-verify, and
the tree is left unchanged. -/
theorem C5_verify_and_pop_roots (m : Bool) (i : ℕ) (e : Bool)
    (c c1 c2 : T_HYPO_NODE) (cs : List T_HYPO_NODE) :
    MHT.verifyTTreeRootsOne (T_HYPO_NODE.mk false m i [c]) =
      ((if m then [i] else []) ++ (MHT.verifyTTreeRootsOne c).1,
        (MHT.verifyTTreeRootsOne c).2) ∧
    MHT.verifyTTreeRootsOne (T_HYPO_NODE.mk true m i [c]) =
      ((if m then [i] else []), T_HYPO_NODE.mk true m i [c]) ∧
    MHT.verifyTTreeRootsOne (T_HYPO_NODE.mk e m i []) =
      ((if e && m then [i] else []), T_HYPO_NODE.mk e m i []) ∧
    MHT.verifyTTreeRootsOne (T_HYPO_NODE.mk e m i (c1 :: c2 :: cs)) =
      ((if e && m then [i] else []), T_HYPO_NODE.mk e m i (c1 :: c2 :: cs)) := by
  refine ⟨?_, ?_, ?_, ?_⟩
  · rw [MHT.verifyTTreeRootsOne]
    simp
  · rw [MHT.verifyTTreeRootsOne]
    simp
  · rw [MHT.verifyTTreeRootsOne]
    simp
  · rw [MHT.verifyTTreeRootsOne]
    simp
